import Mathlib

/-!
Shallow embedding of the review-analytics pipeline in `src/app.py`
(Amazon-Reviews-Project).

The script loads a flat table of reviews (columns `product_title`,
`domain`, `rating`), derives a per-review sentiment label and score
(lines 57-62), aggregates to a per-product table keyed by
`(product_title, domain)` with mean rating, review count and mean
sentiment score (lines 67-71), renders a buying-recommendation tier from
the mean rating (lines 131-136) and a per-row sentiment breakdown chart
filtered by title only (lines 141-145), and answers free-text queries by
a fixed substring rule table followed by a descending sort on
`avg_rating` and `iloc[0]` (lines 196-208).

Numeric review ratings and the derived means are modelled as rationals
(`ℚ`): the script computes with IEEE floats, and the rational value is
the exact idealisation of that arithmetic.  A pandas data frame is
modelled as a list of records; `groupby` keeps one row per distinct key.
A missing CSV cell (NaN) is modelled as `none` where relevant; every
comparison against NaN is false in pandas, which the model reproduces.
-/

namespace App

/-- One row of the raw input table (`final_product_dataset.csv`). -/
structure ReviewRecord where
  product_title : String
  domain : String
  rating : ℚ
deriving DecidableEq, Repr

/-- One row of the aggregated table `product_df` (src/app.py lines 67-71). -/
structure ProductSummary where
  product_title : String
  domain : String
  avg_rating : ℚ
  review_count : ℕ
  avg_sentiment_score : ℚ
deriving DecidableEq, Repr

/-- Sentiment label of a single review, src/app.py lines 57-59:
`"Positive" if r >= 4 else "Neutral" if r == 3 else "Negative"`. -/
def sentiment (r : ℚ) : String :=
  if 4 ≤ r then "Positive" else if r = 3 then "Neutral" else "Negative"

/-- The dictionary `sentiment_map` of src/app.py line 61. -/
def sentiment_map : List (String × ℤ) :=
  [("Positive", 1), ("Neutral", 0), ("Negative", -1)]

/-- The `.map(sentiment_map)` cell value (line 62); `none` would be the NaN
produced by a key missing from the dictionary. -/
def sentiment_score? (r : ℚ) : Option ℤ :=
  sentiment_map.lookup (sentiment r)

/-- Numeric sentiment score of a review; the default is never used because
`sentiment` only produces the three dictionary keys. -/
def sentiment_score (r : ℚ) : ℤ :=
  (sentiment_score? r).getD 0

/-- The groupby key of a raw row (src/app.py line 67). -/
def rowKey (r : ReviewRecord) : String × String :=
  (r.product_title, r.domain)

/-- The rows of one groupby group: all raw rows with the given key. -/
def groupRows (rs : List ReviewRecord) (k : String × String) : List ReviewRecord :=
  rs.filter (fun r => decide (rowKey r = k))

/-- The distinct groupby keys, one per group, in order of first occurrence. -/
def groupKeys (rs : List ReviewRecord) : List (String × String) :=
  (rs.map rowKey).dedup

/-- The aggregation of src/app.py lines 67-71: one `ProductSummary` per
distinct `(product_title, domain)` key, with `avg_rating` the mean rating,
`review_count` the group size and `avg_sentiment_score` the mean score. -/
def aggregate (rs : List ReviewRecord) : List ProductSummary :=
  (groupKeys rs).map (fun k =>
    { product_title := k.1
      domain := k.2
      avg_rating := ((groupRows rs k).map (fun r => r.rating)).sum / ((groupRows rs k).length : ℚ)
      review_count := (groupRows rs k).length
      avg_sentiment_score :=
        ((groupRows rs k).map (fun r => (sentiment_score r.rating : ℚ))).sum
          / ((groupRows rs k).length : ℚ) })

/-- The three buying-guide outcomes of src/app.py lines 131-136. -/
inductive Tier where
  | MustBuy
  | ThinkAgain
  | Avoid
deriving DecidableEq, Repr

/-- Buying-guide logic of src/app.py lines 131-136: `if row["avg_rating"] >= 4`
then Must Buy, `elif row["avg_rating"] < 3` then Avoid, else Think Again. -/
def buyingTier (avg_rating : ℚ) : Tier :=
  if 4 ≤ avg_rating then Tier.MustBuy
  else if avg_rating < 3 then Tier.Avoid
  else Tier.ThinkAgain

/-- The title-only filter of src/app.py line 141:
`raw_df[raw_df["product_title"] == row["product_title"]]`. -/
def product_reviews (raw_df : List ReviewRecord) (title : String) : List ReviewRecord :=
  raw_df.filter (fun r => decide (r.product_title = title))

/-- Count of rows of a list whose sentiment label equals `lbl`, the
`(column == lbl).sum()` idiom of src/app.py lines 143-145. -/
def countLabel (g : List ReviewRecord) (lbl : String) : ℕ :=
  (g.filter (fun r => decide (sentiment r.rating = lbl))).length

/-- `pos` of src/app.py line 143, computed over the title-only filter. -/
def posCount (raw_df : List ReviewRecord) (title : String) : ℕ :=
  countLabel (product_reviews raw_df title) "Positive"

/-- `neu` of src/app.py line 144. -/
def neuCount (raw_df : List ReviewRecord) (title : String) : ℕ :=
  countLabel (product_reviews raw_df title) "Neutral"

/-- `neg` of src/app.py line 145. -/
def negCount (raw_df : List ReviewRecord) (title : String) : ℕ :=
  countLabel (product_reviews raw_df title) "Negative"

/-- Python substring containment `pat in q` on lowered character lists. -/
def containsSub (q : List Char) (pat : String) : Bool :=
  decide (pat.toList <:+: q)

/-- Python `str.lower()` on a character list. -/
def lowerStr (q : List Char) : List Char :=
  q.map Char.toLower

/-- The rule table of src/app.py lines 199-206, evaluated top to bottom on
the lowercased query (line 197); `none` is the final else branch in which
no domain filter is applied. -/
def inferCategory (user_q : List Char) : Option String :=
  if containsSub (lowerStr user_q) "phone" || containsSub (lowerStr user_q) "mobile" then
    some "Electronics"
  else if containsSub (lowerStr user_q) "book" then some "Books"
  else if containsSub (lowerStr user_q) "cloth" || containsSub (lowerStr user_q) "shirt" ||
      containsSub (lowerStr user_q) "dress" then
    some "Clothing"
  else none

/-- The `subset` data frame of src/app.py lines 199-206: rows of `product_df`
whose `domain` equals the inferred category, or the whole table when no rule
matched. -/
def inferredSubset (user_q : List Char) (product_df : List ProductSummary) :
    List ProductSummary :=
  match inferCategory user_q with
  | some c => product_df.filter (fun s => decide (s.domain = c))
  | none => product_df

/-- The comparison key of `sort_values("avg_rating")`. -/
def ratingLe (a b : ProductSummary) : Prop :=
  a.avg_rating ≤ b.avg_rating

instance : DecidableRel ratingLe := fun a b =>
  inferInstanceAs (Decidable (a.avg_rating ≤ b.avg_rating))

instance : IsTrans ProductSummary ratingLe :=
  ⟨fun _ _ _ hab hbc => le_trans hab hbc⟩

instance : IsTotal ProductSummary ratingLe :=
  ⟨fun a b => le_total a.avg_rating b.avg_rating⟩

/-- `subset.sort_values("avg_rating", ascending=False)` (src/app.py line 208).
pandas produces the descending order by reversing the ascending argsort
(`nargsort` applies `[::-1]` to it), modelled as the reverse of a stable
ascending sort; numpy argsort runs the stable insertion sort on the small
arrays of this app, so the model matches the script there. -/
def sort_values_desc (df : List ProductSummary) : List ProductSummary :=
  (df.insertionSort ratingLe).reverse

/-- `subset.sort_values("avg_rating", ascending=False).iloc[0]` (line 208).
`none` models the `IndexError` that `iloc[0]` raises on an empty frame:
no row is produced and the exception propagates. -/
def recommend (user_q : List Char) (product_df : List ProductSummary) :
    Option ProductSummary :=
  (sort_values_desc (inferredSubset user_q product_df)).head?

/-- The observable outcome of the chatbot block, src/app.py lines 196-213. -/
inductive ChatOutcome where
  | silent
  | crash
  | recommended (best : ProductSummary)
deriving DecidableEq, Repr

/-- The whole chatbot block: `if user_q:` (line 196) skips everything for an
empty query string; otherwise the best row is rendered, or the uncaught
`IndexError` of `iloc[0]` aborts the script run. -/
def chatbot (user_q : List Char) (product_df : List ProductSummary) : ChatOutcome :=
  if user_q.isEmpty then ChatOutcome.silent
  else
    match recommend user_q product_df with
    | some best => ChatOutcome.recommended best
    | none => ChatOutcome.crash

/-- `cell >= c` with NaN semantics: every comparison against NaN is false. -/
def cellGe (cell : Option ℚ) (c : ℚ) : Bool :=
  match cell with
  | some x => decide (c ≤ x)
  | none => false

/-- `cell == c` with NaN semantics: NaN compares unequal to everything. -/
def cellEq (cell : Option ℚ) (c : ℚ) : Bool :=
  match cell with
  | some x => decide (x = c)
  | none => false

/-- The sentiment lambda of src/app.py lines 57-59 applied to a raw cell,
with the NaN comparison semantics pandas gives a missing rating. -/
def sentimentOfCell (cell : Option ℚ) : String :=
  if cellGe cell 4 then "Positive" else if cellEq cell 3 then "Neutral" else "Negative"

/-- The concrete three-review scenario of spec section 8. -/
def rs₀ : List ReviewRecord :=
  [⟨"A", "Electronics", 5⟩, ⟨"A", "Electronics", 3⟩, ⟨"B", "Books", 2⟩]

/-- The aggregated Electronics row of that scenario. -/
def s₀ : ProductSummary :=
  ⟨"A", "Electronics", 4, 2, 1 / 2⟩

/-- The two-domain duplicate-title dataset of the C10 witness. -/
def rs₁ : List ReviewRecord :=
  [⟨"X", "Books", 5⟩, ⟨"X", "Electronics", 2⟩]

/-- The aggregated Books row of that dataset. -/
def s₁ : ProductSummary :=
  ⟨"X", "Books", 5, 1, 1⟩

example : sentiment 5 = "Positive" := by decide
example : sentiment 3 = "Neutral" := by decide
example : sentiment 2 = "Negative" := by decide
example : sentiment_score 5 = 1 := by decide
example : buyingTier 4 = Tier.MustBuy := by decide
example : inferCategory ("Suggest me a good PHONE".toList) = some "Electronics" := by decide
example : inferCategory ("bookshelf".toList) = some "Books" := by decide
example : inferCategory ("zzz".toList) = none := by decide

/-- C2 counterexample: the rating 7/2 = 3.5 is classified Negative by the
script although it is not below 3, refuting the claimed
Negative-iff-rating-below-3 equivalence. -/
theorem sentiment_negative_not_below_three :
    sentiment (7 / 2) = "Negative" ∧ ¬ ((7 / 2 : ℚ) < 3) := by
  constructor
  · unfold sentiment
    rw [if_neg (by norm_num), if_neg (by norm_num)]
  · norm_num

/-- C2 (amended): Positive iff the rating is at least 4, Neutral iff it
equals 3, and Negative iff it is below 4 and different from 3 (so
non-integer ratings strictly between 3 and 4 are Negative); the score is
+1 for Positive, 0 for Neutral and -1 for Negative, and both are functions
of the single rating alone. -/
theorem sentiment_spec (r : ℚ) :
    (sentiment r = "Positive" ↔ 4 ≤ r) ∧
    (sentiment r = "Neutral" ↔ r = 3) ∧
    (sentiment r = "Negative" ↔ (r < 4 ∧ r ≠ 3)) ∧
    sentiment_score r =
      (if sentiment r = "Positive" then 1 else if sentiment r = "Neutral" then 0 else -1) := by
  refine ⟨?_, ?_, ?_, ?_⟩
  · unfold sentiment
    split_ifs with h1 h2
    · simp [h1]
    · simp [h1]
    · simp [h1]
  · unfold sentiment
    split_ifs with h1 h2
    · constructor
      · intro h
        exact absurd h (by decide)
      · intro h
        rw [h] at h1
        norm_num at h1
    · simp [h2]
    · simp [h2]
  · unfold sentiment
    split_ifs with h1 h2
    · constructor
      · intro h
        exact absurd h (by decide)
      · rintro ⟨hlt, -⟩
        linarith
    · constructor
      · intro h
        exact absurd h (by decide)
      · rintro ⟨-, hne⟩
        exact absurd h2 hne
    · constructor
      · intro _
        exact ⟨not_le.mp h1, h2⟩
      · intro _
        rfl
  · unfold sentiment_score sentiment_score? sentiment_map sentiment
    split_ifs <;> simp_all [List.lookup]

/-- C3: the buying-recommendation tier is a pure function of the average
rating: Must Buy iff it is at least 4, Avoid iff it is below 3, Think Again
iff it is at least 3 and below 4. -/
theorem buyingTier_spec (a : ℚ) :
    (buyingTier a = Tier.MustBuy ↔ 4 ≤ a) ∧
    (buyingTier a = Tier.Avoid ↔ a < 3) ∧
    (buyingTier a = Tier.ThinkAgain ↔ (3 ≤ a ∧ a < 4)) := by
  refine ⟨?_, ?_, ?_⟩ <;> unfold buyingTier <;> split_ifs with h1 h2
  · simp [h1]
  · simp [h1]
  · simp [h1]
  · constructor
    · intro h
      exact absurd h (by decide)
    · intro h
      linarith
  · simp [h2]
  · simp [h2]
  · constructor
    · intro h
      exact absurd h (by decide)
    · rintro ⟨-, h4⟩
      linarith
  · constructor
    · intro h
      exact absurd h (by decide)
    · rintro ⟨h3, -⟩
      linarith
  · constructor
    · intro _
      exact ⟨not_lt.mp h2, not_le.mp h1⟩
    · intro _
      rfl

/-- C9: a missing `rating` cell (NaN) is silently classified Negative by the
sentiment lambda, because both NaN comparisons are false; no record is
rejected and no error is raised. -/
theorem missing_rating_classified_negative :
    sentimentOfCell none = "Negative" := by
  decide

/-- C5: on a query that infers Electronics against a table containing only a
Books row, the filtered subset is empty and the chatbot block aborts with the
uncaught `IndexError` of `iloc[0]` (the `crash` outcome) instead of reporting
a not-found result. -/
theorem chatbot_crashes_on_empty_subset :
    chatbot ("best phone".toList)
      [{ product_title := "Y", domain := "Books", avg_rating := 3, review_count := 1,
         avg_sentiment_score := 0 }] = ChatOutcome.crash := by
  decide

/-- C4: category inference is case-insensitive substring matching of the
fixed rule table against the lowercased query, top to bottom, first match
winning; a query matching no rule infers no category. -/
theorem inferCategory_spec (user_q : List Char) :
    (inferCategory user_q = some "Electronics" ↔
      ("phone".toList <:+: lowerStr user_q ∨ "mobile".toList <:+: lowerStr user_q)) ∧
    (inferCategory user_q = some "Books" ↔
      (¬ ("phone".toList <:+: lowerStr user_q ∨ "mobile".toList <:+: lowerStr user_q) ∧
        "book".toList <:+: lowerStr user_q)) ∧
    (inferCategory user_q = some "Clothing" ↔
      (¬ ("phone".toList <:+: lowerStr user_q ∨ "mobile".toList <:+: lowerStr user_q) ∧
        ¬ "book".toList <:+: lowerStr user_q ∧
        ("cloth".toList <:+: lowerStr user_q ∨ "shirt".toList <:+: lowerStr user_q ∨
          "dress".toList <:+: lowerStr user_q))) ∧
    (inferCategory user_q = none ↔
      (¬ ("phone".toList <:+: lowerStr user_q ∨ "mobile".toList <:+: lowerStr user_q) ∧
        ¬ "book".toList <:+: lowerStr user_q ∧
        ¬ ("cloth".toList <:+: lowerStr user_q ∨ "shirt".toList <:+: lowerStr user_q ∨
          "dress".toList <:+: lowerStr user_q))) := by
  unfold inferCategory containsSub
  split_ifs with h1 h2 h3 <;> simp_all [Bool.or_eq_true, decide_eq_true_eq]
  all_goals tauto

/-- In a list sorted by `R`, every element is the last one or relates to it. -/
lemma rel_getLast_of_pairwise {α : Type _} {R : α → α → Prop} :
    ∀ (l : List α) (p : α), l.Pairwise R → l.getLast? = some p →
      ∀ x ∈ l, x = p ∨ R x p := by
  intro l
  induction l with
  | nil =>
    intro p _ h
    simp at h
  | cons a t ih =>
    intro p hpw hlast x hx
    cases t with
    | nil =>
      have hap : a = p := by simpa using hlast
      have hxa : x = a := by simpa using hx
      exact Or.inl (hxa.trans hap)
    | cons b t' =>
      have hlast' : (b :: t').getLast? = some p := by
        rwa [List.getLast?_cons_cons] at hlast
      obtain ⟨ha, hpw'⟩ := List.pairwise_cons.mp hpw
      rcases List.mem_cons.mp hx with rfl | hx'
      · exact Or.inr (ha p (List.mem_of_getLast?_eq_some hlast'))
      · exact ih p hpw' hlast' x hx'

/-- The row produced by line 208 belongs to the filtered subset and attains
its maximum `avg_rating`. -/
lemma recommend_mem_max (q : List Char) (df : List ProductSummary) (p : ProductSummary)
    (hp : recommend q df = some p) :
    p ∈ inferredSubset q df ∧
      ∀ s ∈ inferredSubset q df, s.avg_rating ≤ p.avg_rating := by
  have hlast : ((inferredSubset q df).insertionSort ratingLe).getLast? = some p := by
    have h := hp
    rw [recommend, sort_values_desc, List.head?_reverse] at h
    exact h
  have hsort : List.Sorted ratingLe ((inferredSubset q df).insertionSort ratingLe) :=
    List.sorted_insertionSort ratingLe _
  have hmem : p ∈ inferredSubset q df :=
    (List.mem_insertionSort ratingLe).mp (List.mem_of_getLast?_eq_some hlast)
  refine ⟨hmem, ?_⟩
  intro s hs
  have hs' : s ∈ (inferredSubset q df).insertionSort ratingLe :=
    (List.mem_insertionSort ratingLe).mpr hs
  rcases rel_getLast_of_pairwise _ p hsort hlast s hs' with rfl | hle
  · exact le_refl _
  · exact hle

/-- C6: when a category was inferred, the recommended row (if any) has
exactly that domain, because line 208 selects from the filtered subset. -/
theorem recommend_respects_inferred_category
    (q : List Char) (df : List ProductSummary) (c : String) (p : ProductSummary)
    (hc : inferCategory q = some c) (hp : recommend q df = some p) :
    p.domain = c := by
  have hmem := (recommend_mem_max q df p hp).1
  simp only [inferredSubset, hc] at hmem
  exact of_decide_eq_true (List.mem_filter.mp hmem).2

/-- C6 witness at a concrete query and table. -/
theorem recommend_respects_inferred_category_witness :
    (ProductSummary.mk "P1" "Electronics" 5 1 1).domain = "Electronics" :=
  recommend_respects_inferred_category ("phone".toList)
    [ProductSummary.mk "P1" "Electronics" 5 1 1] "Electronics"
    (ProductSummary.mk "P1" "Electronics" 5 1 1) (by decide) (by decide)

/-- C7 counterexample: two summaries tie at `avg_rating` 4 and the script
returns the second one, the later input occurrence, because the descending
order is the reverse of the stable ascending order; the first occurrence is
a different row. -/
theorem recommend_tiebreak_not_first_occurrence :
    recommend ("zzz".toList)
        [ProductSummary.mk "First" "Books" 4 1 1, ProductSummary.mk "Second" "Books" 4 1 1] =
      some (ProductSummary.mk "Second" "Books" 4 1 1) ∧
    ProductSummary.mk "First" "Books" 4 1 1 ≠ ProductSummary.mk "Second" "Books" 4 1 1 := by
  constructor
  · decide
  · decide

/-- C7 (amended): among the filtered subset the selected row attains the
maximum `avg_rating`; the tie order is implementation-defined by the
unstable descending sort (in the model, the reverse of the stable ascending
order, so the last tied occurrence wins), not first occurrence. -/
theorem recommend_selects_max_avg_rating
    (q : List Char) (df : List ProductSummary) (p : ProductSummary)
    (hp : recommend q df = some p) :
    p ∈ inferredSubset q df ∧
      ∀ s ∈ inferredSubset q df, s.avg_rating ≤ p.avg_rating :=
  recommend_mem_max q df p hp

/-- C7 witness at a concrete query and table. -/
theorem recommend_selects_max_avg_rating_witness :
    ProductSummary.mk "Solo" "Books" 4 1 1 ∈
        inferredSubset ("zzz".toList) [ProductSummary.mk "Solo" "Books" 4 1 1] ∧
      ∀ s ∈ inferredSubset ("zzz".toList) [ProductSummary.mk "Solo" "Books" 4 1 1],
        s.avg_rating ≤ (ProductSummary.mk "Solo" "Books" 4 1 1).avg_rating :=
  recommend_selects_max_avg_rating ("zzz".toList)
    [ProductSummary.mk "Solo" "Books" 4 1 1]
    (ProductSummary.mk "Solo" "Books" 4 1 1) (by decide)

/-- C8: the empty query matches no category rule, so no domain filter is
applied and the recommendation is a row attaining the global maximum
`avg_rating` across all domains. -/
theorem recommend_empty_query_global_max
    (df : List ProductSummary) (hdf : df ≠ []) :
    inferCategory [] = none ∧
    ∃ p, recommend [] df = some p ∧ p ∈ df ∧
      ∀ s ∈ df, s.avg_rating ≤ p.avg_rating := by
  have hnone : inferCategory [] = none := by decide
  have hsub : inferredSubset [] df = df := by
    simp [inferredSubset, hnone]
  refine ⟨hnone, ?_⟩
  obtain ⟨p, hp⟩ : ∃ p, recommend [] df = some p := by
    cases hrec : recommend [] df with
    | some p => exact ⟨p, rfl⟩
    | none =>
      exfalso
      rw [recommend] at hrec
      have hnil : sort_values_desc (inferredSubset [] df) = [] :=
        List.head?_eq_none_iff.mp hrec
      rw [sort_values_desc] at hnil
      have h0 : (inferredSubset [] df).insertionSort ratingLe = [] := by
        rwa [List.reverse_eq_nil_iff] at hnil
      have hlen := congrArg List.length h0
      rw [List.length_insertionSort, hsub] at hlen
      exact hdf (List.length_eq_zero.mp hlen)
  obtain ⟨hmem, hmax⟩ := recommend_mem_max [] df p hp
  rw [hsub] at hmem hmax
  exact ⟨p, hp, hmem, hmax⟩

/-- C8 witness at a concrete one-row table. -/
theorem recommend_empty_query_global_max_witness :
    inferCategory [] = none ∧
    ∃ p, recommend [] [ProductSummary.mk "A" "Books" 4 1 1] = some p ∧
      p ∈ [ProductSummary.mk "A" "Books" 4 1 1] ∧
      ∀ s ∈ [ProductSummary.mk "A" "Books" 4 1 1],
        s.avg_rating ≤ p.avg_rating :=
  recommend_empty_query_global_max [ProductSummary.mk "A" "Books" 4 1 1] (by decide)

/-- Splitting the sum of a pointwise sum of naturals over a list. -/
lemma sum_map_add_nat {α : Type _} (l : List α) (f g : α → ℕ) :
    (l.map (fun a => f a + g a)).sum = (l.map f).sum + (l.map g).sum := by
  induction l with
  | nil => rfl
  | cons a t ih =>
    simp only [List.map_cons, List.sum_cons, ih]
    omega

/-- Over a duplicate-free list containing `a`, the indicator of `a` sums to 1. -/
lemma sum_map_indicator_eq_one {α : Type _} [DecidableEq α] (l : List α) (a : α)
    (hnd : l.Nodup) (ha : a ∈ l) :
    (l.map (fun k => if a = k then (1 : ℕ) else 0)).sum = 1 := by
  induction l with
  | nil => cases ha
  | cons b t ih =>
    rw [List.nodup_cons] at hnd
    by_cases hab : a = b
    · subst hab
      have hz : (t.map (fun k => if a = k then (1 : ℕ) else 0)).sum = 0 := by
        apply List.sum_eq_zero
        intro x hx
        obtain ⟨k, hk, hxk⟩ := List.mem_map.mp hx
        have hak : a ≠ k := fun h => hnd.1 (h ▸ hk)
        rw [if_neg hak] at hxk
        exact hxk.symm
      simp [hz]
    · have hat : a ∈ t := by
        rcases List.mem_cons.mp ha with h | h
        · exact absurd h hab
        · exact h
      simp [if_neg hab, ih hnd.2 hat]

/-- Adding a row extends exactly the group of its own key by one element. -/
lemma groupRows_cons_length (r : ReviewRecord) (rs : List ReviewRecord)
    (k : String × String) :
    (groupRows (r :: rs) k).length
      = (if rowKey r = k then 1 else 0) + (groupRows rs k).length := by
  simp only [groupRows, List.filter_cons]
  by_cases h : rowKey r = k
  · simp [h]
    omega
  · simp [h]

/-- The group sizes over any duplicate-free covering key list add up to the
number of raw rows: no review is dropped or double-counted. -/
lemma sum_groupRows_length (keys : List (String × String)) (rs : List ReviewRecord)
    (hnd : keys.Nodup) (hcov : ∀ r ∈ rs, rowKey r ∈ keys) :
    (keys.map (fun k => (groupRows rs k).length)).sum = rs.length := by
  induction rs with
  | nil => simp [groupRows]
  | cons r rs ih =>
    have hr : rowKey r ∈ keys := hcov r (List.mem_cons_self r rs)
    have hcov' : ∀ x ∈ rs, rowKey x ∈ keys := fun x hx => hcov x (List.mem_cons_of_mem r hx)
    have hmap : keys.map (fun k => (groupRows (r :: rs) k).length)
        = keys.map (fun k => (if rowKey r = k then 1 else 0) + (groupRows rs k).length) :=
      List.map_congr_left (fun k _ => groupRows_cons_length r rs k)
    rw [hmap, sum_map_add_nat, sum_map_indicator_eq_one keys (rowKey r) hnd hr, ih hcov',
      List.length_cons]
    omega

/-- Every raw row has its key among the group keys. -/
lemma rowKey_mem_groupKeys (rs : List ReviewRecord) (r : ReviewRecord) (hr : r ∈ rs) :
    rowKey r ∈ groupKeys rs :=
  List.mem_dedup.mpr (List.mem_map_of_mem rowKey hr)

/-- C1: every output row of the aggregation reports the size, mean rating and
mean sentiment score of exactly the raw rows sharing its composite key, each
group is non-empty, the review counts add up to the number of input rows
(nothing dropped or double-counted), and no two output rows share a key. -/
theorem aggregate_correct (rs : List ReviewRecord) :
    (∀ s ∈ aggregate rs,
      s.review_count = (groupRows rs (s.product_title, s.domain)).length ∧
      0 < s.review_count ∧
      s.avg_rating =
        ((groupRows rs (s.product_title, s.domain)).map (fun r => r.rating)).sum
          / (s.review_count : ℚ) ∧
      s.avg_sentiment_score =
        ((groupRows rs (s.product_title, s.domain)).map
            (fun r => (sentiment_score r.rating : ℚ))).sum / (s.review_count : ℚ)) ∧
    ((aggregate rs).map (fun s => s.review_count)).sum = rs.length ∧
    ((aggregate rs).map (fun s => (s.product_title, s.domain))).Nodup := by
  refine ⟨?_, ?_, ?_⟩
  · intro s hs
    obtain ⟨k, hk, hsk⟩ := List.mem_map.mp hs
    subst hsk
    dsimp only
    rw [Prod.mk.eta]
    have hk' : k ∈ (rs.map rowKey).dedup := hk
    obtain ⟨r, hr, hrk⟩ := List.mem_map.mp (List.mem_dedup.mp hk')
    have hrg : r ∈ groupRows rs k := List.mem_filter.mpr ⟨hr, by simp [hrk]⟩
    exact ⟨rfl, List.length_pos_of_mem hrg, rfl, rfl⟩
  · have hmap : (aggregate rs).map (fun s => s.review_count)
        = (groupKeys rs).map (fun k => (groupRows rs k).length) := by
      simp only [aggregate, List.map_map]
      rfl
    rw [hmap]
    exact sum_groupRows_length (groupKeys rs) rs (List.nodup_dedup _)
      (fun r hr => rowKey_mem_groupKeys rs r hr)
  · have hmap : (aggregate rs).map (fun s => (s.product_title, s.domain))
        = groupKeys rs := by
      simp only [aggregate, List.map_map, Function.comp_def, Prod.mk.eta]
      exact List.map_id' (groupKeys rs)
    rw [hmap]
    exact List.nodup_dedup _

/-- C1 witness at the concrete scenario of spec section 8. -/
theorem aggregate_correct_witness :
    s₀.review_count = (groupRows rs₀ (s₀.product_title, s₀.domain)).length ∧
    0 < s₀.review_count ∧
    s₀.avg_rating =
      ((groupRows rs₀ (s₀.product_title, s₀.domain)).map (fun r => r.rating)).sum
        / (s₀.review_count : ℚ) ∧
    s₀.avg_sentiment_score =
      ((groupRows rs₀ (s₀.product_title, s₀.domain)).map
          (fun r => (sentiment_score r.rating : ℚ))).sum / (s₀.review_count : ℚ) :=
  (aggregate_correct rs₀).1 s₀ (by
    refine List.mem_map.mpr ⟨("A", "Electronics"), by decide, ?_⟩
    have hg : groupRows rs₀ ("A", "Electronics")
        = [⟨"A", "Electronics", 5⟩, ⟨"A", "Electronics", 3⟩] := rfl
    have h5 : sentiment_score 5 = 1 := by decide
    have h3 : sentiment_score 3 = 0 := by decide
    dsimp only
    rw [hg]
    simp only [s₀, List.map_cons, List.map_nil, List.sum_cons, List.sum_nil,
      List.length_cons, List.length_nil, h5, h3, ProductSummary.mk.injEq]
    norm_num)

/-- Each review gets exactly one of the three sentiment labels. -/
lemma sentiment_trichotomy (r : ℚ) :
    sentiment r = "Positive" ∨ sentiment r = "Neutral" ∨ sentiment r = "Negative" := by
  unfold sentiment
  split_ifs with h1 h2
  · exact Or.inl rfl
  · exact Or.inr (Or.inl rfl)
  · exact Or.inr (Or.inr rfl)

/-- The three label counts partition any list of reviews. -/
lemma countLabel_partition (g : List ReviewRecord) :
    countLabel g "Positive" + countLabel g "Neutral" + countLabel g "Negative"
      = g.length := by
  induction g with
  | nil => rfl
  | cons r t ih =>
    simp only [countLabel, List.filter_cons] at ih ⊢
    rcases sentiment_trichotomy r.rating with h | h | h <;> simp [h] <;> omega

/-- A filter is strictly shorter than its list when some member fails it. -/
lemma length_filter_lt_of_mem_not {α : Type _} (p : α → Bool) :
    ∀ (l : List α) (x : α), x ∈ l → p x = false → (l.filter p).length < l.length := by
  intro l
  induction l with
  | nil =>
    intro x hx _
    cases hx
  | cons a t ih =>
    intro x hx hpx
    rw [List.filter_cons]
    rcases List.mem_cons.mp hx with rfl | hxt
    · simp only [hpx, Bool.false_eq_true, if_false, List.length_cons]
      exact Nat.lt_succ_of_le (List.length_filter_le p t)
    · by_cases h : p a = true
      · rw [if_pos h]
        simp only [List.length_cons]
        exact Nat.succ_lt_succ (ih x hxt hpx)
      · rw [if_neg h]
        simp only [List.length_cons]
        exact Nat.lt_succ_of_lt (ih x hxt hpx)

/-- C10: the sentiment breakdown of a summary row is computed from the
title-only filter of line 141, ignoring the domain, so when the same title
also occurs in a second domain the three counts include the reviews of the
other domain and their sum strictly exceeds the review count of the row. -/
theorem sentiment_breakdown_ignores_domain
    (rs : List ReviewRecord) (t d₁ d₂ : String) (hd : d₁ ≠ d₂)
    (r₂ : ReviewRecord) (hr₂ : r₂ ∈ rs) (ht₂ : r₂.product_title = t)
    (hdom₂ : r₂.domain = d₂)
    (s : ProductSummary) (hs : s ∈ aggregate rs)
    (hst : s.product_title = t) (hsd : s.domain = d₁) :
    s.review_count < posCount rs t + neuCount rs t + negCount rs t := by
  obtain ⟨k, hk, hsk⟩ := List.mem_map.mp hs
  have hk1 : k.1 = t := by
    rw [← hsk] at hst
    exact hst
  have hk2 : k.2 = d₁ := by
    rw [← hsk] at hsd
    exact hsd
  have hkey : k = (t, d₁) := by
    rw [← hk1, ← hk2]
  have hcount : s.review_count = (groupRows rs (t, d₁)).length := by
    rw [← hsk, ← hkey]
  have hsum : posCount rs t + neuCount rs t + negCount rs t
      = (product_reviews rs t).length :=
    countLabel_partition (product_reviews rs t)
  have hrefine : groupRows rs (t, d₁)
      = (product_reviews rs t).filter (fun r => decide (r.domain = d₁)) := by
    simp only [groupRows, product_reviews, List.filter_filter]
    apply List.filter_congr
    intro r _
    by_cases h1 : r.product_title = t <;> by_cases h2 : r.domain = d₁ <;>
      simp [rowKey, Prod.ext_iff, h1, h2]
  have hr₂' : r₂ ∈ product_reviews rs t :=
    List.mem_filter.mpr ⟨hr₂, by simp [ht₂]⟩
  have hnot : ¬ r₂.domain = d₁ := by
    rw [hdom₂]
    exact fun h => hd h.symm
  have hlt : ((product_reviews rs t).filter (fun r => decide (r.domain = d₁))).length
      < (product_reviews rs t).length :=
    length_filter_lt_of_mem_not (fun r => decide (r.domain = d₁)) (product_reviews rs t)
      r₂ hr₂' (by simp [hnot])
  calc s.review_count
      = ((product_reviews rs t).filter (fun r => decide (r.domain = d₁))).length := by
        rw [hcount, hrefine]
    _ < (product_reviews rs t).length := hlt
    _ = posCount rs t + neuCount rs t + negCount rs t := hsum.symm

/-- C10 witness: with title X in both Books and Electronics, the Books row
counts 1 review but the breakdown counts 2. -/
theorem sentiment_breakdown_ignores_domain_witness :
    s₁.review_count < posCount rs₁ "X" + neuCount rs₁ "X" + negCount rs₁ "X" :=
  sentiment_breakdown_ignores_domain rs₁ "X" "Books" "Electronics" (by decide)
    ⟨"X", "Electronics", 2⟩ (by decide) rfl rfl s₁
    (by
      refine List.mem_map.mpr ⟨("X", "Books"), by decide, ?_⟩
      have hg : groupRows rs₁ ("X", "Books") = [⟨"X", "Books", 5⟩] := rfl
      have h5 : sentiment_score 5 = 1 := by decide
      dsimp only
      rw [hg]
      simp only [s₁, List.map_cons, List.map_nil, List.sum_cons, List.sum_nil,
        List.length_cons, List.length_nil, h5, ProductSummary.mk.injEq]
      norm_num)
    rfl rfl

end App
